import Mathlib

/-!
Verification development for the `sandpiper_compile` tool of
`mcp-sandpipersaas.py`: a compile proxy that packages local TL-Verilog
sources into an in-memory zip, POSTs them to a remote service, and
extracts the artifacts of the response archive into a local directory.

The embedding is shallow and executable:

* POSIX path strings are modelled as `String` / `List Char`; the
  `os.path` functions used by the source (`join`, `relpath`, and the
  component normalization both perform) are translated component by
  component from `posixpath`.
* The filesystem is a function `FS : String → Except String String`
  (`Path(p).read_text(encoding='utf-8')`: the content on success, the
  exception text on failure).
* The HTTP layer is a function
  `Transport : String → List PayloadField → Except String HResp`
  (`requests.post`: error = raised exception).  The response body is
  already given as a parsed zip (`Except` models an undecodable body),
  and each response-zip entry carries `Option String` text (`none`
  models bytes that are not valid UTF-8).
* Per-file filesystem effects of extraction (`os.makedirs` + `open` +
  `copyfileobj`) are abstracted by an oracle `writeOk : String → Bool`
  telling whether writing a given target path succeeds; the model
  records the list of target paths opened for writing.
* The in-memory `io.BytesIO` buffer is tracked by a field
  `bufferState : Option Bool` (`none` = never created, `some b` =
  created, `b` = explicitly closed on that exit path).
-/

/-- Python truthiness of an optional string (`if s:`): `None` and `""`
are falsy. -/
def strTruthy : Option String → Bool
  | none => false
  | some s => !(s == "")

/-- Split a character list on `'/'`, keeping empty segments, exactly as
`str.split('/')` does. -/
def splitSlash : List Char → List (List Char)
  | [] => [[]]
  | c :: rest =>
    if c = '/' then [] :: splitSlash rest
    else
      match splitSlash rest with
      | [] => [[c]]
      | g :: gs => (c :: g) :: gs

/-- Join path components with `'/'` (`'/'.join`, which is also what
`posixpath.join` does on a list of relative components). -/
def joinSlash : List (List Char) → List Char
  | [] => []
  | g :: gs =>
    match gs with
    | [] => g
    | _ :: _ => g ++ '/' :: joinSlash gs

/-- One step of `posixpath.normpath` on the components of an absolute
path: drop empty and `'.'` components, let `'..'` pop the last kept
component (clamped at the root), keep everything else. -/
def normStep (acc : List (List Char)) (c : List Char) : List (List Char) :=
  if c = [] ∨ c = ['.'] then acc
  else if c = ['.', '.'] then acc.dropLast
  else acc ++ [c]

/-- Components of `posixpath.normpath` of an absolute path, given the
raw components. -/
def absNorm (l : List (List Char)) : List (List Char) :=
  l.foldl normStep []

/-- Components of `posixpath.abspath s` (i.e. `normpath(join(cwd, s))`),
with the current working directory given as its (already normalized)
absolute components `cwd`. -/
def absParts (cwd : List (List Char)) (s : List Char) : List (List Char) :=
  absNorm ((if s.head? = some '/' then [] else cwd) ++ splitSlash s)

/-- Length of the element-wise common prefix of two component lists
(`os.path.commonprefix` applied to two lists). -/
def commonPrefixLen : List (List Char) → List (List Char) → Nat
  | a :: as, b :: bs => if a = b then commonPrefixLen as bs + 1 else 0
  | _, _ => 0

/-- Component list produced by `posixpath.relpath path start` (both
interpreted relative to `cwd` when not absolute). -/
def relParts (cwd : List (List Char)) (path start : List Char) : List (List Char) :=
  List.replicate
      ((absParts cwd start).length - commonPrefixLen (absParts cwd path) (absParts cwd start))
      ['.', '.']
    ++ (absParts cwd path).drop (commonPrefixLen (absParts cwd path) (absParts cwd start))

/-- The string returned by `posixpath.relpath path start`, as a
character list: `'.'` when the relative component list is empty,
otherwise the components joined with `'/'`. -/
def relpathChars (cwd : List (List Char)) (path start : List Char) : List Char :=
  if relParts cwd path start = [] then ['.'] else joinSlash (relParts cwd path start)

/-- `posixpath.join a b` for two path components. -/
def osJoinC (a b : List Char) : List Char :=
  if b.head? = some '/' then b
  else if a = [] then b
  else if a.getLast? = some '/' then a ++ b
  else a ++ '/' :: b

/-- `os.path.join` on strings. -/
def osJoinS (a b : String) : String :=
  String.mk (osJoinC a.toList b.toList)

/-- `pathlib.PurePosixPath(p).name`: the last component after dropping
empty and `'.'` components (empty for paths like `""`, `"."`, `"/"`). -/
def baseName (p : String) : String :=
  String.mk
    (((splitSlash p.toList).filter
        (fun g => decide (g ≠ [] ∧ g ≠ ['.']))).getLastD [])

/-- Index of the last occurrence of `c` (`str.rfind`), if any. -/
def lastIdxOf (c : Char) : List Char → Option Nat
  | [] => none
  | x :: xs =>
    match lastIdxOf c xs with
    | some i => some (i + 1)
    | none => if x = c then some 0 else none

/-- `pathlib` suffix replacement applied to a file name: the suffix is
`name[i:]` for the last dot position `i` when `0 < i < len - 1`,
otherwise empty; `with_suffix(".sv")` strips it and appends `".sv"`.
Combined with `baseName` this models
`Path(top).with_suffix(".sv").name` for paths with a nonempty name. -/
def withSuffixSv (name : String) : String :=
  match lastIdxOf '.' name.toList with
  | some i =>
    if 0 < i ∧ i + 1 < name.toList.length then
      String.mk (name.toList.take i ++ ('.' :: 's' :: 'v' :: []))
    else String.mk (name.toList ++ ('.' :: 's' :: 'v' :: []))
  | none => String.mk (name.toList ++ ('.' :: 's' :: 'v' :: []))

/-- Python `str.split()` with no argument: split on whitespace runs and
drop empty pieces. -/
def pySplitWs (s : String) : List String :=
  (s.split (fun c => c.isWhitespace)).filter (fun t => !t.isEmpty)

/-- The keyword-argument surface of `sandpiper_compile` (lines 15-62 of
the source), in source order.  `Option` fields default to `None`,
`Bool` fields to `False`, `additional_args` to `""`. -/
structure Inputs where
  top : String
  f : Option (List String)
  o : Option String
  endpoint : Option String
  outdir : Option String
  bestsv : Bool
  clkAlways : Bool
  clkEnable : Bool
  clkGate : Bool
  clkStageAlways : Bool
  compiler : Option String
  conversion : Bool
  debugSigs : Bool
  debugSigsGtkwave : Bool
  debugSigsYosys : Bool
  fmtDeclSingleton : Bool
  fmtEscapedNames : Bool
  fmtFlatSignals : Bool
  fmtFullHdlHier : Bool
  fmtInlineInjection : Bool
  fmtNoRespace : Bool
  fmtPack : Option Int
  fmtPackAll : Bool
  fmtPackBooleans : Bool
  fmtStripUniquifiers : Bool
  fmtUseGenerate : Bool
  hdl : Option String
  iArgs : Bool
  inlineGen : Bool
  license : Bool
  licenseFile : Option String
  noDirectiveComments : Bool
  noline : Bool
  nopath : Bool
  p : Option String
  randomUnassigned : Bool
  reset0 : Bool
  scrub : Bool
  time : Bool
  verbose : Bool
  xclk : Bool
  xinj : Bool
  additional_args : String

/-- An `Inputs` value with every optional argument at its default, as
in a call that passes only `top`, `f`, `o` and `outdir`. -/
def mkInputs (top : String) (f : Option (List String)) (o outdir : Option String) : Inputs :=
  ⟨top, f, o, none, outdir,
   false, false, false, false, false, none, false, false, false, false,
   false, false, false, false, false, false, none, false, false, false,
   false, none, false, false, false, none, false, false, false, none,
   false, false, false, false, false, false, false, ""⟩

/-- Value-bearing string flag: `if v: flags += [tok, v]` (Python
truthiness, so `None` and `""` emit nothing). -/
def strFlag (tok : String) : Option String → List String
  | none => []
  | some s => if s = "" then [] else [tok, s]

/-- Boolean flag: `if b: flags.append(tok)`. -/
def boolFlag (b : Bool) (tok : String) : List String :=
  if b then [tok] else []

/-- Integer-valued flag with an explicit `is not None` test:
`if v is not None: flags += [tok, str(v)]`. -/
def intFlag (tok : String) : Option Int → List String
  | none => []
  | some n => [tok, toString n]

/-- The free-form tail: `if additional_args:
flags.extend(additional_args.split())`. -/
def extraFlags (s : String) : List String :=
  if s = "" then [] else pySplitWs s

/-- The `flags` list collected by lines 125-164, in source order (the
sequential `flags.append` / `flags +=` calls, concatenated). -/
def flagsOf (i : Inputs) : List String :=
  List.flatten
    [boolFlag i.bestsv "--bestsv",
     boolFlag i.clkAlways "--clkAlways",
     boolFlag i.clkEnable "--clkEnable",
     boolFlag i.clkGate "--clkGate",
     boolFlag i.clkStageAlways "--clkStageAlways",
     strFlag "--compiler" i.compiler,
     boolFlag i.conversion "--conversion",
     boolFlag i.debugSigs "--debugSigs",
     boolFlag i.debugSigsGtkwave "--debugSigsGtkwave",
     boolFlag i.debugSigsYosys "--debugSigsYosys",
     boolFlag i.fmtDeclSingleton "--fmtDeclSingleton",
     boolFlag i.fmtEscapedNames "--fmtEscapedNames",
     boolFlag i.fmtFlatSignals "--fmtFlatSignals",
     boolFlag i.fmtFullHdlHier "--fmtFullHdlHier",
     boolFlag i.fmtInlineInjection "--fmtInlineInjection",
     boolFlag i.fmtNoRespace "--fmtNoRespace",
     intFlag "--fmtPack" i.fmtPack,
     boolFlag i.fmtPackAll "--fmtPackAll",
     boolFlag i.fmtPackBooleans "--fmtPackBooleans",
     boolFlag i.fmtStripUniquifiers "--fmtStripUniquifiers",
     boolFlag i.fmtUseGenerate "--fmtUseGenerate",
     strFlag "--hdl" i.hdl,
     boolFlag i.iArgs "--iArgs",
     boolFlag i.inlineGen "--inlineGen",
     boolFlag i.license "--license",
     strFlag "--licenseFile" i.licenseFile,
     boolFlag i.noDirectiveComments "--noDirectiveComments",
     boolFlag i.noline "--noline",
     boolFlag i.nopath "--nopath",
     strFlag "--p" i.p,
     boolFlag i.randomUnassigned "--randomUnassigned",
     boolFlag i.reset0 "--reset0",
     boolFlag i.scrub "--scrub",
     boolFlag i.time "--time",
     boolFlag i.verbose "--verbose",
     boolFlag i.xclk "--xclk",
     boolFlag i.xinj "--xinj",
     extraFlags i.additional_args]

/-- Line 121: `default_file = top_path.with_suffix(".sv").name if o is
None else o` (for the non-raising case of a nonempty name). -/
def defaultFileOf (i : Inputs) : String :=
  match i.o with
  | some s => s
  | none => withSuffixSv (baseName i.top)

/-- Line 122: `output_arg = default_file if outdir is None else
os.path.join(outdir, default_file)`. -/
def outputArgOf (i : Inputs) : String :=
  match i.outdir with
  | none => defaultFileOf i
  | some d => osJoinS d (defaultFileOf i)

/-- Line 167: `args_field = f"-i {top_path.name} -o {output_arg}
{' '.join(flags)}"`. -/
def argsField (i : Inputs) : String :=
  "-i " ++ baseName i.top ++ " -o " ++ outputArgOf i ++ " "
    ++ String.intercalate " " (flagsOf i)

/-- Lines 116-117: the endpoint defaults to the fixed service URL. -/
def endpointOf (i : Inputs) : String :=
  match i.endpoint with
  | some u => u
  | none => "https://faas.makerchip.com/function/sandpiper-faas"

/-- The include list iterated by the zip builder: `if f:` skips both
`None` and an empty list, which reads the same files as looping over
the empty list. -/
def includesOf (i : Inputs) : List String :=
  match i.f with
  | none => []
  | some l => l

/-- The local filesystem, as seen through
`Path(p).read_text(encoding='utf-8')`: content on success, exception
text on failure (missing file, directory, undecodable bytes). -/
abbrev FS := String → Except String String

/-- Read a list of files in order into zip entries named by base name
(the include loop of lines 173-175); the first read failure is the
exception that escapes the `with` block. -/
def readEntries (fs : FS) : List String → Except String (List (String × String))
  | [] => Except.ok []
  | q :: qs =>
    match fs q with
    | Except.error e => Except.error e
    | Except.ok c =>
      match readEntries fs qs with
      | Except.error e => Except.error e
      | Except.ok rest => Except.ok ((baseName q, c) :: rest)

/-- Lines 170-178: build the in-memory input archive (entries in write
order: includes in caller order, primary file last).  The archive is
modelled as its entry list; `writestr` re-encodes the decoded text as
UTF-8, so each entry's bytes are the file's bytes. -/
def buildZip (fs : FS) (i : Inputs) : Except String (List (String × String)) :=
  match readEntries fs (includesOf i) with
  | Except.error e => Except.error e
  | Except.ok incs =>
    match fs i.top with
    | Except.error e => Except.error e
    | Except.ok ctop => Except.ok (incs ++ [(baseName i.top, ctop)])

/-- A multipart form field value: plain text, or the archive bytes. -/
inductive PayloadValue where
  | text (s : String)
  | zipData (entries : List (String × String))
deriving DecidableEq

/-- One multipart form field: name, optional upload filename, value
(`requests` tuple `(filename, value)`). -/
structure PayloadField where
  name : String
  filename : Option String
  value : PayloadValue
deriving DecidableEq

/-- Lines 181-187: the `files=` dictionary of the POST, in insertion
order. -/
def payloadOf (args : String) (z : List (String × String)) : List PayloadField :=
  ⟨"args", none, PayloadValue.text args⟩
    :: ⟨"IAgreeToSLA", none, PayloadValue.text "true"⟩
    :: ⟨"sv_url_inc", none, PayloadValue.text "false"⟩
    :: ⟨"default_includes", none, PayloadValue.text "false"⟩
    :: ⟨"context", some "context.zip", PayloadValue.zipData z⟩
    :: []

/-- The HTTP response: the body parsed as a zip (error = line 197-199
failure), with each entry's text as `Option String` (`none` =
undecodable as UTF-8), plus the `compile_id` header. -/
structure HResp where
  zipEntries : Except String (List (String × Option String))
  compile_id : Option String

/-- The network, as seen through `requests.post(endpoint, files=...)`:
error = raised exception (lines 188-192). -/
abbrev Transport := String → List PayloadField → Except String HResp

/-- Lines 201-205, `_read`: open an entry by name (last entry wins on
duplicate names, as in `ZipFile.NameToInfo`), decoding failures and
missing entries both yield the placeholder. -/
def readEntry (z : List (String × Option String)) (name : String) : String :=
  match z.reverse.find? (fun e => e.1 == name) with
  | some (_, some s) => s
  | some (_, none) => "<Error reading " ++ name ++ ">"
  | none => "<Error reading " ++ name ++ ">"

/-- `f"{compile_id}/out/"`, the artifact prefix of lines 216-217. -/
def artifactRoot (cid : String) : List Char :=
  cid.toList ++ ('/' :: 'o' :: 'u' :: 't' :: '/' :: [])

/-- State of the extraction loop: target paths opened for writing, the
`summary` string, and the uncaught exception, if one was raised. -/
structure ExtractResult where
  written : List String
  summary : String
  exc : Option String
deriving DecidableEq

/-- One iteration of the extraction loop (lines 215-223).  There is no
per-file exception handler in the source: a failing write raises, which
aborts the loop (modelled by `exc`, which freezes the state). -/
def extractStep (cwd : List (List Char)) (cid dir : String) (writeOk : String → Bool)
    (st : ExtractResult) (fn : String) : ExtractResult :=
  match st.exc with
  | some _ => st
  | none =>
    if (artifactRoot cid).isPrefixOf fn.toList = true then
      if (['.', '.'].isPrefixOf (relpathChars cwd fn.toList (artifactRoot cid))) = true then st
      else
        if writeOk (String.mk (osJoinC dir.toList (relpathChars cwd fn.toList (artifactRoot cid)))) = true then
          ⟨st.written ++ [String.mk (osJoinC dir.toList (relpathChars cwd fn.toList (artifactRoot cid)))],
           st.summary ++ "Extracted: "
             ++ String.mk (osJoinC dir.toList (relpathChars cwd fn.toList (artifactRoot cid)))
             ++ "\n",
           none⟩
        else
          ⟨st.written, st.summary,
           some ("Error writing "
             ++ String.mk (osJoinC dir.toList (relpathChars cwd fn.toList (artifactRoot cid))))⟩
    else st

/-- The whole extraction loop over `resp_zip.namelist()`. -/
def extractAll (cwd : List (List Char)) (cid dir : String) (writeOk : String → Bool)
    (entries : List String) : ExtractResult :=
  entries.foldl (extractStep cwd cid dir writeOk) ⟨[], "", none⟩

/-- Line 120: `extraction_dir = str(top_path.parent.resolve()) if
outdir is None else outdir`; `resolveFn` abstracts
`Path(top).parent.resolve()` (a filesystem-dependent absolute path). -/
def extractionDirOf (resolveFn : String → String) (i : Inputs) : String :=
  match i.outdir with
  | some d => d
  | none => resolveFn i.top

/-- Lines 228-233: the returned summary string. -/
def finalString (exitCode stdoutOut stderrOut summary : String) : String :=
  "Compile status: " ++ exitCode ++ "\nSTDOUT:\n" ++ stdoutOut
    ++ "\nSTDERR:\n" ++ stderrOut ++ "\nFiles:\n" ++ summary

/-- Observable outcome of one invocation: the returned string (`none`
when an uncaught exception escapes the function), whether the transport
was invoked, the buffer state, the payload handed to the transport, and
the target paths opened for writing. -/
structure Outcome where
  result : Option String
  networkCalled : Bool
  bufferState : Option Bool
  sentPayload : Option (List PayloadField)
  written : List String
deriving DecidableEq

/-- The full `sandpiper_compile` pipeline (lines 115-233).  The first
branch models the `ValueError` that `Path(top).with_suffix(".sv")`
raises on line 121 when `o is None` and the top path has an empty name
(so nothing is built and nothing is sent). -/
def sandpiper_compile (cwd : List (List Char)) (resolveFn : String → String)
    (fs : FS) (tr : Transport) (writeOk : String → Bool) (i : Inputs) : Outcome :=
  if i.o = none ∧ baseName i.top = "" then
    ⟨none, false, none, none, []⟩
  else
    match buildZip fs i with
    | Except.error e =>
      ⟨some ("Error creating input zip: " ++ e), false, some false, none, []⟩
    | Except.ok zs =>
      match tr (endpointOf i) (payloadOf (argsField i) zs) with
      | Except.error e =>
        ⟨some ("Error accessing compile service: " ++ e), true, some true,
         some (payloadOf (argsField i) zs), []⟩
      | Except.ok resp =>
        match resp.zipEntries with
        | Except.error e =>
          ⟨some ("Error extracting response zip: " ++ e), true, some true,
           some (payloadOf (argsField i) zs), []⟩
        | Except.ok rz =>
          if strTruthy resp.compile_id = true then
            match resp.compile_id with
            | none => ⟨none, true, some true, some (payloadOf (argsField i) zs), []⟩
            | some cid =>
              match (extractAll cwd cid (extractionDirOf resolveFn i) writeOk
                  (rz.map Prod.fst)).exc with
              | some _ =>
                ⟨none, true, some true, some (payloadOf (argsField i) zs),
                 (extractAll cwd cid (extractionDirOf resolveFn i) writeOk
                   (rz.map Prod.fst)).written⟩
              | none =>
                ⟨some (finalString (readEntry rz "status") (readEntry rz "stdout")
                    (readEntry rz "stderr")
                    (extractAll cwd cid (extractionDirOf resolveFn i) writeOk
                      (rz.map Prod.fst)).summary),
                 true, some true, some (payloadOf (argsField i) zs),
                 (extractAll cwd cid (extractionDirOf resolveFn i) writeOk
                   (rz.map Prod.fst)).written⟩
          else
            ⟨some (finalString (readEntry rz "status") (readEntry rz "stdout")
                (readEntry rz "stderr") "No compile_id; no files extracted.\n"),
             true, some true, some (payloadOf (argsField i) zs), []⟩

/-- Components of a well-formed normalized absolute directory (such as
the components `os.getcwd()` yields): no empty, `.` or `..` segment,
and no slash inside a segment. -/
def GoodComps (xs : List (List Char)) : Prop :=
  ∀ x ∈ xs, x ≠ [] ∧ x ≠ ['.'] ∧ x ≠ ['.', '.'] ∧ '/' ∉ x

/-- Spec-side definition of the effective output name, following the
spec's words: the output name defaults to the primary file's base name
with its extension replaced by `.sv`. -/
def specOutputName (i : Inputs) : String :=
  match i.o with
  | some s => s
  | none => withSuffixSv (baseName i.top)

/-- Spec-side definition of the effective output path, following the
spec's words: `outputDir/outputName` (path join) when an `outdir`
override is given, just `outputName` when it is not. -/
def specEffectiveOutputPath (i : Inputs) : String :=
  match i.outdir with
  | some d => osJoinS d (specOutputName i)
  | none => specOutputName i

/-- Spec-side definition of the argument string, following the spec's
words: `-i <primaryFileBaseName> -o <effectiveOutputPath> <flags...>`. -/
def specArgsField (i : Inputs) : String :=
  "-i " ++ baseName i.top ++ " -o " ++ specEffectiveOutputPath i ++ " "
    ++ String.intercalate " " (flagsOf i)

/-- Whether an `Except` computation succeeded (read succeeded, call
returned). -/
def exOk {ε α : Type} : Except ε α → Bool
  | Except.ok _ => true
  | Except.error _ => false

theorem splitSlash_ne_nil (l : List Char) : splitSlash l ≠ [] := by
  cases l with
  | nil => simp [splitSlash]
  | cons c rest =>
    by_cases hc : c = '/'
    · simp [splitSlash, hc]
    · simp only [splitSlash, if_neg hc]
      cases h : splitSlash rest <;> simp

theorem splitSlash_append (a b : List Char) :
    splitSlash (a ++ '/' :: b) = splitSlash a ++ splitSlash b := by
  induction a with
  | nil => simp [splitSlash]
  | cons c a ih =>
    obtain ⟨g, gs, hg⟩ := List.exists_cons_of_ne_nil (splitSlash_ne_nil a)
    by_cases hc : c = '/'
    · simp [splitSlash, hc, ih]
    · simp [splitSlash, if_neg hc, ih, hg]

theorem splitSlash_no_slash (l : List Char) : ∀ g ∈ splitSlash l, '/' ∉ g := by
  induction l with
  | nil => simp [splitSlash]
  | cons c rest ih =>
    by_cases hc : c = '/'
    · simp only [splitSlash, if_pos hc]
      intro g hg
      rcases List.mem_cons.mp hg with h | h
      · simp [h]
      · exact ih g h
    · obtain ⟨g0, gs, hg⟩ := List.exists_cons_of_ne_nil (splitSlash_ne_nil rest)
      simp only [splitSlash, if_neg hc, hg]
      intro g hmem
      rcases List.mem_cons.mp hmem with h | h
      · subst h
        intro hin
        rcases List.mem_cons.mp hin with h2 | h2
        · exact hc h2.symm
        · exact ih g0 (hg ▸ List.mem_cons_self _ _) h2
      · exact ih g (hg ▸ List.mem_cons_of_mem _ h)

theorem splitSlash_of_no_slash (l : List Char) (h : '/' ∉ l) : splitSlash l = [l] := by
  induction l with
  | nil => rfl
  | cons c rest ih =>
    have hc : c ≠ '/' := by rintro rfl; exact h (List.mem_cons_self _ _)
    have hr : '/' ∉ rest := fun hm => h (List.mem_cons_of_mem _ hm)
    simp [splitSlash, if_neg hc, ih hr]

theorem splitSlash_joinSlash (gs : List (List Char)) (hne : gs ≠ [])
    (hs : ∀ g ∈ gs, '/' ∉ g) : splitSlash (joinSlash gs) = gs := by
  induction gs with
  | nil => exact absurd rfl hne
  | cons g rest ih =>
    cases rest with
    | nil => simp [joinSlash, splitSlash_of_no_slash g (hs g (List.mem_cons_self _ _))]
    | cons g2 rest2 =>
      have hj : joinSlash (g :: g2 :: rest2) = g ++ '/' :: joinSlash (g2 :: rest2) := rfl
      rw [hj, splitSlash_append, splitSlash_of_no_slash g (hs g (List.mem_cons_self _ _)),
          ih (by simp) (fun q hq => hs q (List.mem_cons_of_mem _ hq))]
      rfl

theorem joinSlash_head (g : List Char) (rest : List (List Char)) (hg : g ≠ []) :
    (joinSlash (g :: rest)).head? = g.head? := by
  cases rest with
  | nil => rfl
  | cons g2 r2 => exact List.head?_append_of_ne_nil g hg

theorem normStep_nil_seg (acc : List (List Char)) : normStep acc [] = acc := by
  simp [normStep]

theorem normStep_dot_seg (acc : List (List Char)) : normStep acc ['.'] = acc := by
  simp [normStep]

theorem absNorm_append (y z : List (List Char)) :
    absNorm (y ++ z) = List.foldl normStep (absNorm y) z := by
  unfold absNorm
  rw [List.foldl_append]

theorem absNorm_append_nilseg (y : List (List Char)) : absNorm (y ++ [[]]) = absNorm y := by
  rw [absNorm_append]
  simp [normStep]

theorem foldl_normStep_good (gs : List (List Char))
    (h : ∀ g ∈ gs, g ≠ [] ∧ g ≠ ['.'] ∧ g ≠ ['.', '.']) :
    ∀ acc, List.foldl normStep acc gs = acc ++ gs := by
  induction gs with
  | nil => intro acc; simp
  | cons g rest ih =>
    intro acc
    obtain ⟨h1, h2, h3⟩ := h g (List.mem_cons_self _ _)
    have hstep : normStep acc g = acc ++ [g] := by
      unfold normStep
      rw [if_neg (fun hc => hc.elim h1 h2), if_neg h3]
    rw [List.foldl_cons, hstep, ih (fun q hq => h q (List.mem_cons_of_mem _ hq))]
    simp

theorem goodComps_foldl (l : List (List Char)) (hl : ∀ g ∈ l, '/' ∉ g) :
    ∀ acc, GoodComps acc → GoodComps (List.foldl normStep acc l) := by
  induction l with
  | nil => intro acc h; exact h
  | cons g rest ih =>
    intro acc hacc
    rw [List.foldl_cons]
    apply ih (fun q hq => hl q (List.mem_cons_of_mem _ hq))
    by_cases h1 : g = [] ∨ g = ['.']
    · have : normStep acc g = acc := by unfold normStep; rw [if_pos h1]
      rw [this]; exact hacc
    · by_cases h2 : g = ['.', '.']
      · have : normStep acc g = acc.dropLast := by
          unfold normStep; rw [if_neg h1, if_pos h2]
        rw [this]
        intro x hx
        exact hacc x (List.mem_of_mem_dropLast hx)
      · have : normStep acc g = acc ++ [g] := by
          unfold normStep; rw [if_neg h1, if_neg h2]
        rw [this]
        intro x hx
        rcases List.mem_append.mp hx with hx | hx
        · exact hacc x hx
        · have hxg : x = g := List.mem_singleton.mp hx
          subst hxg
          push_neg at h1
          exact ⟨h1.1, h1.2, h2, hl x (List.mem_cons_self _ _)⟩

theorem goodComps_absParts (cwd : List (List Char)) (hcwd : GoodComps cwd) (s : List Char) :
    GoodComps (absParts cwd s) := by
  unfold absParts absNorm
  have hslash : ∀ g ∈ (if s.head? = some '/' then [] else cwd) ++ splitSlash s, '/' ∉ g := by
    intro g hg
    rcases List.mem_append.mp hg with hg | hg
    · by_cases hh : s.head? = some '/'
      · rw [if_pos hh] at hg; simp at hg
      · rw [if_neg hh] at hg; exact (hcwd g hg).2.2.2
    · exact splitSlash_no_slash s g hg
  have hnil : GoodComps [] := by intro x hx; simp at hx
  exact goodComps_foldl _ hslash [] hnil

theorem absParts_osJoinC (cwd : List (List Char)) (dir rel : List Char)
    (hrel : rel.head? ≠ some '/') :
    absParts cwd (osJoinC dir rel)
      = List.foldl normStep (absParts cwd dir) (splitSlash rel) := by
  by_cases hd : dir = []
  · subst hd
    have h1 : osJoinC [] rel = rel := by
      unfold osJoinC; rw [if_neg hrel, if_pos rfl]
    rw [h1]
    unfold absParts
    rw [if_neg hrel]
    have h2 : (([] : List Char)).head? ≠ some '/' := by simp
    rw [if_neg h2]
    have h3 : splitSlash ([] : List Char) = [[]] := rfl
    rw [h3, absNorm_append_nilseg, absNorm_append]
  · by_cases hl : dir.getLast? = some '/'
    · have hdir : dir.dropLast ++ ['/'] = dir :=
        List.dropLast_append_getLast? '/' (Option.mem_def.mpr hl)
      have h1 : osJoinC dir rel = dir ++ rel := by
        unfold osJoinC; rw [if_neg hrel, if_neg hd, if_pos hl]
      rw [h1]
      have hhead : (dir ++ rel).head? = dir.head? := List.head?_append_of_ne_nil dir hd
      unfold absParts
      rw [hhead]
      have hsp : splitSlash (dir ++ rel)
          = splitSlash dir.dropLast ++ splitSlash rel := by
        conv_lhs => rw [← hdir]
        rw [List.append_assoc]
        exact splitSlash_append _ _
      have hsp2 : splitSlash dir = splitSlash dir.dropLast ++ [[]] := by
        conv_lhs => rw [← hdir]
        have h5 : splitSlash (dir.dropLast ++ '/' :: [])
            = splitSlash dir.dropLast ++ splitSlash [] := splitSlash_append _ _
        simpa using h5
      rw [hsp, hsp2, ← List.append_assoc, ← List.append_assoc,
          absNorm_append_nilseg, absNorm_append]
    · have h1 : osJoinC dir rel = dir ++ '/' :: rel := by
        unfold osJoinC; rw [if_neg hrel, if_neg hd, if_neg hl]
      rw [h1]
      have hhead : (dir ++ '/' :: rel).head? = dir.head? := List.head?_append_of_ne_nil dir hd
      unfold absParts
      rw [hhead, splitSlash_append, ← List.append_assoc, absNorm_append]

theorem isPrefixOf_append_self {α : Type} [BEq α] [LawfulBEq α] (l t : List α) :
    l.isPrefixOf (l ++ t) = true := by
  induction l with
  | nil => simp [List.isPrefixOf]
  | cons c cs ih => simp [List.isPrefixOf, ih]

theorem dotdot_isPrefixOf_joinSlash (rest : List (List Char)) :
    (['.', '.'].isPrefixOf (joinSlash (['.', '.'] :: rest))) = true := by
  cases rest with
  | nil => decide
  | cons g2 r2 =>
    show (['.', '.'].isPrefixOf ('.' :: '.' :: '/' :: joinSlash (g2 :: r2))) = true
    simp [List.isPrefixOf]

theorem inside_of_not_dotdot (cwd : List (List Char)) (hcwd : GoodComps cwd)
    (dirChars fn pfx : List Char)
    (h : (['.', '.'].isPrefixOf (relpathChars cwd fn pfx)) = false) :
    (absParts cwd dirChars).isPrefixOf
      (absParts cwd (osJoinC dirChars (relpathChars cwd fn pfx))) = true := by
  unfold relpathChars at h ⊢
  by_cases hempty : relParts cwd fn pfx = []
  · rw [if_pos hempty]
    have hhd : (['.'] : List Char).head? ≠ some '/' := by decide
    rw [absParts_osJoinC cwd dirChars ['.'] hhd]
    have h3 : splitSlash ['.'] = [['.']] := rfl
    rw [h3]
    have h4 : List.foldl normStep (absParts cwd dirChars) [['.']]
        = absParts cwd dirChars := by
      simp [normStep_dot_seg]
    rw [h4]
    have h5 := isPrefixOf_append_self (absParts cwd dirChars) ([] : List (List Char))
    rw [List.append_nil] at h5
    exact h5
  · rw [if_neg hempty] at h ⊢
    cases hk : (absParts cwd pfx).length
        - commonPrefixLen (absParts cwd fn) (absParts cwd pfx) with
    | succ n =>
      exfalso
      have hrl : relParts cwd fn pfx
          = ['.', '.'] :: (List.replicate n ['.', '.']
              ++ (absParts cwd fn).drop
                  (commonPrefixLen (absParts cwd fn) (absParts cwd pfx))) := by
        unfold relParts
        rw [hk, List.replicate_succ, List.cons_append]
      rw [hrl, dotdot_isPrefixOf_joinSlash] at h
      exact Bool.true_eq_false.mp h
    | zero =>
      have hrl : relParts cwd fn pfx
          = (absParts cwd fn).drop
              (commonPrefixLen (absParts cwd fn) (absParts cwd pfx)) := by
        unfold relParts
        rw [hk]
        simp
      rw [hrl] at hempty ⊢
      have hgoodp := goodComps_absParts cwd hcwd fn
      have hgood : ∀ g ∈ (absParts cwd fn).drop
          (commonPrefixLen (absParts cwd fn) (absParts cwd pfx)),
          g ≠ [] ∧ g ≠ ['.'] ∧ g ≠ ['.', '.'] ∧ '/' ∉ g := by
        intro g hg
        exact hgoodp g ((List.drop_sublist _ _).subset hg)
      obtain ⟨g, rest, hgs⟩ := List.exists_cons_of_ne_nil hempty
      have hgg := hgood g (by rw [hgs]; exact List.mem_cons_self _ _)
      obtain ⟨c, g0, hcg⟩ := List.exists_cons_of_ne_nil hgg.1
      have hc : c ≠ '/' := by
        rintro rfl
        exact hgg.2.2.2 (by rw [hcg]; exact List.mem_cons_self _ _)
      have hhd : (joinSlash ((absParts cwd fn).drop
          (commonPrefixLen (absParts cwd fn) (absParts cwd pfx)))).head? ≠ some '/' := by
        rw [hgs, joinSlash_head g rest hgg.1, hcg]
        simp [hc]
      rw [absParts_osJoinC cwd dirChars _ hhd,
          splitSlash_joinSlash _ hempty (fun q hq => (hgood q hq).2.2.2),
          foldl_normStep_good _ (fun q hq => ⟨(hgood q hq).1, (hgood q hq).2.1, (hgood q hq).2.2.1⟩)]
      exact isPrefixOf_append_self _ _

theorem bool_eq_false {b : Bool} (h : ¬ b = true) : b = false := by
  cases b with
  | false => rfl
  | true => exact absurd rfl h

theorem foldl_extractStep_exc (cwd : List (List Char)) (cid dir : String)
    (writeOk : String → Bool) (entries : List String) (st : ExtractResult)
    (h : st.exc.isSome = true) :
    List.foldl (extractStep cwd cid dir writeOk) st entries = st := by
  induction entries with
  | nil => rfl
  | cons e rest ih =>
    obtain ⟨s, hs⟩ := Option.isSome_iff_exists.mp h
    have hstep : extractStep cwd cid dir writeOk st e = st := by
      unfold extractStep
      rw [hs]
    rw [List.foldl_cons, hstep, ih]

theorem foldl_extractStep_nonmatching (cwd : List (List Char)) (cid dir : String)
    (writeOk : String → Bool) (entries : List String) (st : ExtractResult)
    (h : ∀ fn ∈ entries, (artifactRoot cid).isPrefixOf fn.toList = false) :
    List.foldl (extractStep cwd cid dir writeOk) st entries = st := by
  induction entries with
  | nil => rfl
  | cons e rest ih =>
    have hstep : extractStep cwd cid dir writeOk st e = st := by
      unfold extractStep
      cases hexc : st.exc with
      | some s => rfl
      | none =>
        rw [h e (List.mem_cons_self _ _)]
        simp
    rw [List.foldl_cons, hstep, ih (fun q hq => h q (List.mem_cons_of_mem _ hq))]

theorem extract_written_inside (cwd : List (List Char)) (hcwd : GoodComps cwd)
    (cid dir : String) (writeOk : String → Bool) (entries : List String) :
    ∀ st : ExtractResult,
      (∀ t ∈ st.written,
        (absParts cwd dir.toList).isPrefixOf (absParts cwd t.toList) = true) →
      ∀ t ∈ (List.foldl (extractStep cwd cid dir writeOk) st entries).written,
        (absParts cwd dir.toList).isPrefixOf (absParts cwd t.toList) = true := by
  induction entries with
  | nil => intro st h; exact h
  | cons e rest ih =>
    intro st hst
    rw [List.foldl_cons]
    apply ih
    intro t ht
    unfold extractStep at ht
    cases hexc : st.exc with
    | some s => rw [hexc] at ht; exact hst t ht
    | none =>
      rw [hexc] at ht
      by_cases h1 : (artifactRoot cid).isPrefixOf e.toList = true
      · rw [if_pos h1] at ht
        by_cases h2 :
            (['.', '.'].isPrefixOf (relpathChars cwd e.toList (artifactRoot cid))) = true
        · rw [if_pos h2] at ht; exact hst t ht
        · rw [if_neg h2] at ht
          by_cases h3 : writeOk (String.mk
              (osJoinC dir.toList (relpathChars cwd e.toList (artifactRoot cid)))) = true
          · rw [if_pos h3] at ht
            rcases List.mem_append.mp ht with ht | ht
            · exact hst t ht
            · have hteq := List.mem_singleton.mp ht
              subst hteq
              exact inside_of_not_dotdot cwd hcwd dir.toList e.toList
                (artifactRoot cid) (bool_eq_false h2)
          · rw [if_neg h3] at ht
            exact hst t ht
      · rw [if_neg h1] at ht; exact hst t ht

/-- C1: for every response archive entry whose name starts with
`<compileId>/out/`, if the relative path obtained by stripping that
prefix would escape the extraction directory (it begins with a
parent-directory traversal segment, which after `os.path.relpath`
normalization is exactly how any escaping path looks), the entry is
skipped and the remaining entries are processed exactly as if the entry
were absent; and every target path the loop opens for writing lies
inside the extraction directory (its absolute normalized components
extend those of the extraction directory). -/
theorem c1_path_traversal_guard (cwd : List (List Char)) (hcwd : GoodComps cwd)
    (cid dir : String) (writeOk : String → Bool) :
    (∀ entries, ∀ t ∈ (extractAll cwd cid dir writeOk entries).written,
        (absParts cwd dir.toList).isPrefixOf (absParts cwd t.toList) = true) ∧
    (∀ pre post fn, (artifactRoot cid).isPrefixOf fn.toList = true →
        (['.', '.'].isPrefixOf (relpathChars cwd fn.toList (artifactRoot cid))) = true →
        extractAll cwd cid dir writeOk (pre ++ fn :: post)
          = extractAll cwd cid dir writeOk (pre ++ post)) := by
  constructor
  · intro entries
    exact extract_written_inside cwd hcwd cid dir writeOk entries ⟨[], "", none⟩
      (by intro t ht; simp at ht)
  · intro pre post fn hm hsk
    unfold extractAll
    rw [List.foldl_append, List.foldl_append, List.foldl_cons]
    congr 1
    generalize List.foldl (extractStep cwd cid dir writeOk) ⟨[], "", none⟩ pre = st
    unfold extractStep
    cases hexc : st.exc with
    | some s => rfl
    | none => rw [if_pos hm, if_pos hsk]

/-- C1 witness: the guard instantiated at the spec's own example, an
entry `abc123/out/../../etc/passwd`: with two well-formed entries
around it, extraction behaves as if the traversal entry were absent. -/
theorem c1_path_traversal_guard_witness :
    extractAll [] "abc123" "/work/out" (fun _ => true)
        (["abc123/out/a.sv"] ++ "abc123/out/../../etc/passwd" :: ["abc123/out/b.sv"])
      = extractAll [] "abc123" "/work/out" (fun _ => true)
        (["abc123/out/a.sv"] ++ ["abc123/out/b.sv"]) :=
  (c1_path_traversal_guard [] (by intro x hx; simp at hx) "abc123" "/work/out"
      (fun _ => true)).2
    ["abc123/out/a.sv"] ["abc123/out/b.sv"] "abc123/out/../../etc/passwd"
    (by decide) (by decide)

/-- C5 counterexample: with compile id `abc`, extraction dir `o`, and a
write oracle that fails exactly on `o/a.sv`, running the loop on the
two candidate entries `abc/out/a.sv`, `abc/out/b.sv` raises (the `exc`
field is set) and writes nothing: the failure of the first entry aborts
extraction of the second (which would have succeeded), and no per-file
error is aggregated into a returned summary — refuting the claim that
a single entry's failure does not abort the remaining entries. -/
theorem c5_counterexample :
    ((extractAll [] "abc" "o" (fun t => !(t == "o/a.sv"))
        ["abc/out/a.sv", "abc/out/b.sv"]).exc.isSome = true) ∧
    ((extractAll [] "abc" "o" (fun t => !(t == "o/a.sv"))
        ["abc/out/a.sv", "abc/out/b.sv"]).written = []) := by
  constructor
  · decide
  · decide

/-- C5 (corrected): the extraction loop has no per-file exception
handler, so a failing write on a matching, non-escaping entry raises:
the resulting state carries the exception, the entries after the
failing one are not extracted (the written list stays exactly what the
prefix produced), and the summary is never returned. -/
theorem extractStep_write_fail (cwd : List (List Char)) (cid dir : String)
    (writeOk : String → Bool) (st : ExtractResult) (fn : String)
    (hexc : st.exc = none)
    (hm : (artifactRoot cid).isPrefixOf fn.toList = true)
    (hnoskip : (['.', '.'].isPrefixOf (relpathChars cwd fn.toList (artifactRoot cid))) = false)
    (hfail : writeOk (String.mk
        (osJoinC dir.toList (relpathChars cwd fn.toList (artifactRoot cid)))) = false) :
    extractStep cwd cid dir writeOk st fn
      = ⟨st.written, st.summary,
         some ("Error writing " ++ String.mk
           (osJoinC dir.toList (relpathChars cwd fn.toList (artifactRoot cid))))⟩ := by
  unfold extractStep
  rw [hexc, if_pos hm, hnoskip, if_neg (by simp), hfail, if_neg (by simp)]

theorem c5_write_error_aborts (cwd : List (List Char)) (cid dir : String)
    (writeOk : String → Bool) (pre post : List String) (fn : String)
    (hpre : (extractAll cwd cid dir writeOk pre).exc = none)
    (hm : (artifactRoot cid).isPrefixOf fn.toList = true)
    (hnoskip : (['.', '.'].isPrefixOf (relpathChars cwd fn.toList (artifactRoot cid))) = false)
    (hfail : writeOk (String.mk
        (osJoinC dir.toList (relpathChars cwd fn.toList (artifactRoot cid)))) = false) :
    (extractAll cwd cid dir writeOk (pre ++ fn :: post)).exc.isSome = true ∧
    (extractAll cwd cid dir writeOk (pre ++ fn :: post)).written
      = (extractAll cwd cid dir writeOk pre).written := by
  unfold extractAll at hpre ⊢
  rw [List.foldl_append, List.foldl_cons,
      extractStep_write_fail cwd cid dir writeOk _ fn hpre hm hnoskip hfail,
      foldl_extractStep_exc _ _ _ _ _ _ (by rfl)]
  exact ⟨rfl, rfl⟩

/-- C5 witness for the corrected claim: at the concrete counterexample
input, the loop over `[abc/out/a.sv, abc/out/b.sv]` with the failing
first write raises and keeps the empty written list of the prefix. -/
theorem c5_write_error_aborts_witness :
    (extractAll [] "abc" "o" (fun t => !(t == "o/a.sv"))
        ([] ++ "abc/out/a.sv" :: ["abc/out/b.sv"])).exc.isSome = true ∧
    (extractAll [] "abc" "o" (fun t => !(t == "o/a.sv"))
        ([] ++ "abc/out/a.sv" :: ["abc/out/b.sv"])).written
      = (extractAll [] "abc" "o" (fun t => !(t == "o/a.sv")) []).written :=
  c5_write_error_aborts [] "abc" "o" (fun t => !(t == "o/a.sv"))
    [] ["abc/out/b.sv"] "abc/out/a.sv" (by decide) (by decide) (by decide) (by decide)

theorem readEntries_of_all_ok (fs : FS) (c : String → String) :
    ∀ l : List String, (∀ q ∈ l, fs q = Except.ok (c q)) →
      readEntries fs l = Except.ok (l.map (fun q => (baseName q, c q))) := by
  intro l
  induction l with
  | nil => intro h; rfl
  | cons q qs ih =>
    intro h
    unfold readEntries
    rw [h q (List.mem_cons_self _ _), ih (fun r hr => h r (List.mem_cons_of_mem _ hr))]
    rfl

/-- C2: when the primary file and all include files are readable, the
archive has exactly one entry per input file, named by the file's base
name, the include entries first in caller-supplied order and the
primary file's entry last, each carrying the source file's content. -/
theorem c2_archive_entries (fs : FS) (i : Inputs) (c : String → String)
    (h : ∀ q ∈ i.top :: includesOf i, fs q = Except.ok (c q)) :
    buildZip fs i
      = Except.ok (((includesOf i).map (fun q => (baseName q, c q)))
          ++ [(baseName i.top, c i.top)]) := by
  unfold buildZip
  rw [readEntries_of_all_ok fs c (includesOf i)
        (fun q hq => h q (List.mem_cons_of_mem _ hq)),
      h i.top (List.mem_cons_self _ _)]

/-- C2 witness: includes `[src/a.tlv, b.tlv]` and primary `src/top.tlv`
produce exactly the three entries `a.tlv`, `b.tlv`, `top.tlv` with the
source contents, primary last. -/
theorem c2_archive_entries_witness :
    buildZip (fun q => Except.ok ("text of " ++ q))
        (mkInputs "src/top.tlv" (some ["src/a.tlv", "b.tlv"]) none none)
      = Except.ok [("a.tlv", "text of src/a.tlv"), ("b.tlv", "text of b.tlv"),
          ("top.tlv", "text of src/top.tlv")] := by
  rw [c2_archive_entries (fun q => Except.ok ("text of " ++ q))
      (mkInputs "src/top.tlv" (some ["src/a.tlv", "b.tlv"]) none none)
      (fun q => "text of " ++ q) (fun q _ => rfl)]
  rfl

/-- C7: two invocations with identical inputs (same argument record,
same filesystem state) construct byte-identical argument strings and
byte-identical input archives; the embedding of the construction is a
pure function of these inputs (flag order is fixed by `flagsOf`), so
determinism holds unconditionally. -/
theorem c7_deterministic (fs : FS) (i j : Inputs) (h : i = j) :
    argsField i = argsField j ∧ buildZip fs i = buildZip fs j := by
  subst h
  exact ⟨rfl, rfl⟩

/-- C7 witness at a concrete input. -/
theorem c7_deterministic_witness :
    argsField (mkInputs "top.tlv" none none none)
        = argsField (mkInputs "top.tlv" none none none) ∧
    buildZip (fun q => Except.ok q) (mkInputs "top.tlv" none none none)
        = buildZip (fun q => Except.ok q) (mkInputs "top.tlv" none none none) :=
  c7_deterministic (fun q => Except.ok q) _ _ rfl

/-- C6: for every invocation whose top path has a nonempty base name
(the others raise before building anything), the argument string is
exactly `-i <primaryFileBaseName> -o <effectiveOutputPath> <flags...>`,
where the effective output path joins `outdir` with the output name
when an `outdir` override is given and is the output name alone
otherwise, and the output name defaults to the primary file's base name
with its extension replaced by `.sv`: the code's string equals the one
built from the spec's words. -/
theorem c6_args_field_form (i : Inputs) (_h : baseName i.top ≠ "") :
    argsField i = specArgsField i := by
  unfold argsField specArgsField outputArgOf specEffectiveOutputPath
    defaultFileOf specOutputName
  cases i.outdir <;> cases i.o <;> rfl

/-- C6 witness: `rtl/top.tlv` with an `outdir` override `out` yields
`-i top.tlv -o out/top.sv `. -/
theorem c6_args_field_form_witness :
    argsField (mkInputs "rtl/top.tlv" none none (some "out"))
        = specArgsField (mkInputs "rtl/top.tlv" none none (some "out")) ∧
    argsField (mkInputs "rtl/top.tlv" none none (some "out"))
        = "-i top.tlv -o out/top.sv " := by
  constructor
  · exact c6_args_field_form _ (by decide)
  · decide

theorem exOk_of_readEntries_ok (fs : FS) :
    ∀ (l : List String) (es : List (String × String)),
      readEntries fs l = Except.ok es → ∀ q ∈ l, exOk (fs q) = true := by
  intro l
  induction l with
  | nil => intro es h q hq; simp at hq
  | cons r rs ih =>
    intro es h q hq
    unfold readEntries at h
    cases hr : fs r with
    | error e => rw [hr] at h; simp at h
    | ok cr =>
      rw [hr] at h
      cases hrec : readEntries fs rs with
      | error e => rw [hrec] at h; simp at h
      | ok rest =>
        rcases List.mem_cons.mp hq with hq | hq
        · subst hq; rw [hr]; rfl
        · exact ih rest hrec q hq

theorem buildZip_error_of_bad (fs : FS) (i : Inputs)
    (hbad : exOk (fs i.top) = false ∨ ∃ q ∈ includesOf i, exOk (fs q) = false) :
    ∃ e, buildZip fs i = Except.error e := by
  cases hz : buildZip fs i with
  | error e => exact ⟨e, rfl⟩
  | ok zs =>
    exfalso
    unfold buildZip at hz
    cases hre : readEntries fs (includesOf i) with
    | error e => rw [hre] at hz; simp at hz
    | ok incs =>
      rw [hre] at hz
      cases htop : fs i.top with
      | error e => rw [htop] at hz; simp at hz
      | ok c =>
        rcases hbad with hbad | ⟨q, hq, hbad⟩
        · rw [htop] at hbad; simp [exOk] at hbad
        · have hq2 := exOk_of_readEntries_ok fs (includesOf i) incs hre q hq
          rw [hbad] at hq2
          simp at hq2

/-- C4: when the primary file or any include file cannot be read, the
operation returns the zip-creation error string immediately, the
transport is never invoked, and no payload is sent. -/
theorem c4_no_network_on_unreadable (cwd : List (List Char))
    (resolveFn : String → String) (fs : FS) (tr : Transport)
    (writeOk : String → Bool) (i : Inputs)
    (hname : ¬(i.o = none ∧ baseName i.top = ""))
    (hbad : exOk (fs i.top) = false ∨ ∃ q ∈ includesOf i, exOk (fs q) = false) :
    (sandpiper_compile cwd resolveFn fs tr writeOk i).networkCalled = false ∧
    (sandpiper_compile cwd resolveFn fs tr writeOk i).sentPayload = none ∧
    ∃ e, (sandpiper_compile cwd resolveFn fs tr writeOk i).result
      = some ("Error creating input zip: " ++ e) := by
  obtain ⟨e, he⟩ := buildZip_error_of_bad fs i hbad
  unfold sandpiper_compile
  rw [if_neg hname, he]
  exact ⟨rfl, rfl, ⟨e, rfl⟩⟩

/-- C4 witness: a missing primary file yields the error return with no
network call (the stub transport is never consulted). -/
theorem c4_no_network_on_unreadable_witness :
    (sandpiper_compile [] id (fun _ => Except.error "No such file or directory")
        (fun _ _ => Except.error "network was reached") (fun _ => true)
        (mkInputs "missing.tlv" none none none)).networkCalled = false ∧
    (sandpiper_compile [] id (fun _ => Except.error "No such file or directory")
        (fun _ _ => Except.error "network was reached") (fun _ => true)
        (mkInputs "missing.tlv" none none none)).sentPayload = none ∧
    ∃ e, (sandpiper_compile [] id (fun _ => Except.error "No such file or directory")
        (fun _ _ => Except.error "network was reached") (fun _ => true)
        (mkInputs "missing.tlv" none none none)).result
      = some ("Error creating input zip: " ++ e) :=
  c4_no_network_on_unreadable [] id (fun _ => Except.error "No such file or directory")
    (fun _ _ => Except.error "network was reached") (fun _ => true)
    (mkInputs "missing.tlv" none none none)
    (by decide) (Or.inl (by decide))

/-- C3: whenever the invocation reaches the network step (readable
inputs), the multipart POST carries exactly the fields `args` (the
constructed argument string), `IAgreeToSLA` = literal `"true"`,
`sv_url_inc` = `"false"` and `default_includes` = `"false"` (the
function exposes no caller booleans for them, so they always take the
default), and `context` = the archive entries under filename
`context.zip` — in that order, and nothing else. -/
theorem c3_payload_fields (cwd : List (List Char)) (resolveFn : String → String)
    (fs : FS) (tr : Transport) (writeOk : String → Bool) (i : Inputs)
    (zs : List (String × String))
    (hname : ¬(i.o = none ∧ baseName i.top = ""))
    (hzip : buildZip fs i = Except.ok zs) :
    (sandpiper_compile cwd resolveFn fs tr writeOk i).sentPayload
      = some [⟨"args", none, PayloadValue.text (argsField i)⟩,
              ⟨"IAgreeToSLA", none, PayloadValue.text "true"⟩,
              ⟨"sv_url_inc", none, PayloadValue.text "false"⟩,
              ⟨"default_includes", none, PayloadValue.text "false"⟩,
              ⟨"context", some "context.zip", PayloadValue.zipData zs⟩] ∧
    (sandpiper_compile cwd resolveFn fs tr writeOk i).networkCalled = true := by
  unfold sandpiper_compile
  rw [if_neg hname]
  simp only [hzip]
  cases htr : tr (endpointOf i) (payloadOf (argsField i) zs) with
  | error e => exact ⟨rfl, rfl⟩
  | ok resp =>
    dsimp only
    cases hrz : resp.zipEntries with
    | error e => exact ⟨rfl, rfl⟩
    | ok rz =>
      dsimp only
      by_cases hcid : strTruthy resp.compile_id = true
      · rw [if_pos hcid]
        cases hco : resp.compile_id with
        | none => exact ⟨rfl, rfl⟩
        | some cid =>
          dsimp only
          cases hex : (extractAll cwd cid (extractionDirOf resolveFn i) writeOk
              (rz.map Prod.fst)).exc with
          | some s => exact ⟨rfl, rfl⟩
          | none => exact ⟨rfl, rfl⟩
      · rw [if_neg hcid]
        exact ⟨rfl, rfl⟩

/-- C3 witness at a concrete readable input and stub transport. -/
theorem c3_payload_fields_witness :
    (sandpiper_compile [] id (fun _ => Except.ok "m5: body")
        (fun _ _ => Except.error "offline") (fun _ => true)
        (mkInputs "top.tlv" none none none)).sentPayload
      = some [⟨"args", none, PayloadValue.text
                (argsField (mkInputs "top.tlv" none none none))⟩,
              ⟨"IAgreeToSLA", none, PayloadValue.text "true"⟩,
              ⟨"sv_url_inc", none, PayloadValue.text "false"⟩,
              ⟨"default_includes", none, PayloadValue.text "false"⟩,
              ⟨"context", some "context.zip",
                PayloadValue.zipData [("top.tlv", "m5: body")]⟩] ∧
    (sandpiper_compile [] id (fun _ => Except.ok "m5: body")
        (fun _ _ => Except.error "offline") (fun _ => true)
        (mkInputs "top.tlv" none none none)).networkCalled = true :=
  c3_payload_fields [] id (fun _ => Except.ok "m5: body")
    (fun _ _ => Except.error "offline") (fun _ => true)
    (mkInputs "top.tlv" none none none) [("top.tlv", "m5: body")]
    (by decide) (by rfl)

/-- C8 counterexample: on the archive-build-failure exit path (line 178
of the source) the function returns the error string while the
`io.BytesIO` buffer created on line 170 has not been closed — the
claim that the buffer is released on every exit path is false on this
path (`zip_buffer.close()` is called only on the transport-failure path
and after a successful POST). -/
theorem c8_counterexample :
    (sandpiper_compile [] id (fun _ => Except.error "unreadable")
        (fun _ _ => Except.error "no network") (fun _ => true)
        (mkInputs "top.tlv" none none none)).result
      = some "Error creating input zip: unreadable" ∧
    (sandpiper_compile [] id (fun _ => Except.error "unreadable")
        (fun _ _ => Except.error "no network") (fun _ => true)
        (mkInputs "top.tlv" none none none)).bufferState = some false := by
  exact ⟨rfl, rfl⟩

/-- C8 (corrected): once the archive is built successfully the buffer
is closed on every subsequent exit path (transport failure, response
parse failure, all extraction outcomes), but on the archive-build
failure early return it is created and not closed. -/
theorem c8_buffer_release (cwd : List (List Char)) (resolveFn : String → String)
    (fs : FS) (tr : Transport) (writeOk : String → Bool) (i : Inputs)
    (hname : ¬(i.o = none ∧ baseName i.top = "")) :
    ((∃ zs, buildZip fs i = Except.ok zs) →
        (sandpiper_compile cwd resolveFn fs tr writeOk i).bufferState = some true) ∧
    ((∃ e, buildZip fs i = Except.error e) →
        (sandpiper_compile cwd resolveFn fs tr writeOk i).bufferState = some false) := by
  unfold sandpiper_compile
  rw [if_neg hname]
  constructor
  · rintro ⟨zs, hzs⟩
    simp only [hzs]
    cases htr : tr (endpointOf i) (payloadOf (argsField i) zs) with
    | error e => rfl
    | ok resp =>
      dsimp only
      cases hrz : resp.zipEntries with
      | error e => rfl
      | ok rz =>
        dsimp only
        by_cases hcid : strTruthy resp.compile_id = true
        · rw [if_pos hcid]
          cases hco : resp.compile_id with
          | none => rfl
          | some cid =>
            dsimp only
            cases hex : (extractAll cwd cid (extractionDirOf resolveFn i) writeOk
                (rz.map Prod.fst)).exc with
            | some s => rfl
            | none => rfl
        · rw [if_neg hcid]
  · rintro ⟨e, he⟩
    rw [he]

/-- C8 witness for the corrected claim: with readable input and a
failing transport the buffer is closed; with an unreadable input it is
left open. -/
theorem c8_buffer_release_witness :
    (sandpiper_compile [] id (fun _ => Except.ok "body")
        (fun _ _ => Except.error "offline") (fun _ => true)
        (mkInputs "top.tlv" none none none)).bufferState = some true ∧
    (sandpiper_compile [] id (fun _ => Except.error "unreadable")
        (fun _ _ => Except.error "offline") (fun _ => true)
        (mkInputs "top.tlv" none none none)).bufferState = some false :=
  ⟨(c8_buffer_release [] id (fun _ => Except.ok "body")
      (fun _ _ => Except.error "offline") (fun _ => true)
      (mkInputs "top.tlv" none none none) (by decide)).1
      ⟨[("top.tlv", "body")], by rfl⟩,
   (c8_buffer_release [] id (fun _ => Except.error "unreadable")
      (fun _ _ => Except.error "offline") (fun _ => true)
      (mkInputs "top.tlv" none none none) (by decide)).2
      ⟨"unreadable", by rfl⟩⟩

/-- C9: for every response whose archive yields status `"0"`, stdout
`"ok"`, stderr `""` and that carries no `compile_id` header, the
returned summary is exactly the string reporting exit status 0,
containing `ok`, with the `no files extracted` notice, and no file is
written. -/
theorem c9_no_compile_id_summary (cwd : List (List Char))
    (resolveFn : String → String) (fs : FS) (tr : Transport)
    (writeOk : String → Bool) (i : Inputs) (zs : List (String × String))
    (z : List (String × Option String))
    (hname : ¬(i.o = none ∧ baseName i.top = ""))
    (hzip : buildZip fs i = Except.ok zs)
    (htr : tr (endpointOf i) (payloadOf (argsField i) zs)
        = Except.ok ⟨Except.ok z, none⟩)
    (hs : readEntry z "status" = "0")
    (ho : readEntry z "stdout" = "ok")
    (he : readEntry z "stderr" = "") :
    (sandpiper_compile cwd resolveFn fs tr writeOk i).result
      = some "Compile status: 0\nSTDOUT:\nok\nSTDERR:\n\nFiles:\nNo compile_id; no files extracted.\n" ∧
    (sandpiper_compile cwd resolveFn fs tr writeOk i).written = [] := by
  unfold sandpiper_compile
  rw [if_neg hname]
  simp only [hzip, htr]
  rw [if_neg (by decide : ¬ strTruthy none = true)]
  constructor
  · show some (finalString (readEntry z "status") (readEntry z "stdout")
        (readEntry z "stderr") "No compile_id; no files extracted.\n") = _
    rw [hs, ho, he]
    rfl
  · rfl

/-- C9 witness at a concrete response. -/
theorem c9_no_compile_id_summary_witness :
    (sandpiper_compile [] id (fun _ => Except.ok "body")
        (fun _ _ => Except.ok ⟨Except.ok
            [("status", some "0"), ("stdout", some "ok"), ("stderr", some "")], none⟩)
        (fun _ => true) (mkInputs "top.tlv" none none none)).result
      = some "Compile status: 0\nSTDOUT:\nok\nSTDERR:\n\nFiles:\nNo compile_id; no files extracted.\n" ∧
    (sandpiper_compile [] id (fun _ => Except.ok "body")
        (fun _ _ => Except.ok ⟨Except.ok
            [("status", some "0"), ("stdout", some "ok"), ("stderr", some "")], none⟩)
        (fun _ => true) (mkInputs "top.tlv" none none none)).written = [] :=
  c9_no_compile_id_summary [] id (fun _ => Except.ok "body")
    (fun _ _ => Except.ok ⟨Except.ok
        [("status", some "0"), ("stdout", some "ok"), ("stderr", some "")], none⟩)
    (fun _ => true) (mkInputs "top.tlv" none none none)
    [("top.tlv", "body")]
    [("status", some "0"), ("stdout", some "ok"), ("stderr", some "")]
    (by decide) (by rfl) (by rfl) (by decide) (by decide) (by decide)

/-- C10: for every response carrying a nonempty `compile_id` header
whose archive has no entry under `<compileId>/out/`, nothing is
written and the summary's Files section is empty — in particular the
`no files extracted` notice does not appear (it is emitted only on the
falsy-`compile_id` branch). -/
theorem c10_empty_files_section (cwd : List (List Char))
    (resolveFn : String → String) (fs : FS) (tr : Transport)
    (writeOk : String → Bool) (i : Inputs) (zs : List (String × String))
    (z : List (String × Option String)) (cid : String)
    (hname : ¬(i.o = none ∧ baseName i.top = ""))
    (hzip : buildZip fs i = Except.ok zs)
    (htr : tr (endpointOf i) (payloadOf (argsField i) zs)
        = Except.ok ⟨Except.ok z, some cid⟩)
    (hcid : ¬ cid = "")
    (hnone : ∀ q ∈ z, (artifactRoot cid).isPrefixOf q.1.toList = false) :
    (sandpiper_compile cwd resolveFn fs tr writeOk i).result
      = some ("Compile status: " ++ readEntry z "status" ++ "\nSTDOUT:\n"
          ++ readEntry z "stdout" ++ "\nSTDERR:\n" ++ readEntry z "stderr"
          ++ "\nFiles:\n") ∧
    (sandpiper_compile cwd resolveFn fs tr writeOk i).written = [] := by
  have hext : extractAll cwd cid (extractionDirOf resolveFn i) writeOk
      (z.map Prod.fst) = ⟨[], "", none⟩ := by
    unfold extractAll
    apply foldl_extractStep_nonmatching
    intro fn hfn
    obtain ⟨q, hq, hqe⟩ := List.mem_map.mp hfn
    subst hqe
    exact hnone q hq
  have hct : strTruthy (some cid) = true := by
    simp [strTruthy, hcid]
  unfold sandpiper_compile
  rw [if_neg hname]
  simp only [hzip, htr]
  rw [if_pos hct]
  simp only [hext]
  constructor
  · show some (finalString (readEntry z "status") (readEntry z "stdout")
        (readEntry z "stderr") "") = _
    unfold finalString
    rw [String.append_empty]
  · trivial

/-- C10 witness at a concrete response with a compile id but no
matching artifact entries. -/
theorem c10_empty_files_section_witness :
    (sandpiper_compile [] id (fun _ => Except.ok "body")
        (fun _ _ => Except.ok ⟨Except.ok
            [("status", some "1"), ("stdout", some ""), ("stderr", some "err")],
          some "abc123"⟩)
        (fun _ => true) (mkInputs "top.tlv" none none none)).result
      = some ("Compile status: "
          ++ readEntry [("status", some "1"), ("stdout", some ""), ("stderr", some "err")] "status"
          ++ "\nSTDOUT:\n"
          ++ readEntry [("status", some "1"), ("stdout", some ""), ("stderr", some "err")] "stdout"
          ++ "\nSTDERR:\n"
          ++ readEntry [("status", some "1"), ("stdout", some ""), ("stderr", some "err")] "stderr"
          ++ "\nFiles:\n") ∧
    (sandpiper_compile [] id (fun _ => Except.ok "body")
        (fun _ _ => Except.ok ⟨Except.ok
            [("status", some "1"), ("stdout", some ""), ("stderr", some "err")],
          some "abc123"⟩)
        (fun _ => true) (mkInputs "top.tlv" none none none)).written = [] :=
  c10_empty_files_section [] id (fun _ => Except.ok "body")
    (fun _ _ => Except.ok ⟨Except.ok
        [("status", some "1"), ("stdout", some ""), ("stderr", some "err")],
      some "abc123"⟩)
    (fun _ => true) (mkInputs "top.tlv" none none none)
    [("top.tlv", "body")]
    [("status", some "1"), ("stdout", some ""), ("stderr", some "err")]
    "abc123" (by decide) (by rfl) (by rfl) (by decide) (by decide)
